import Mathlib

/-!
Verification of the figure-generation script of the finite-memory stochastic
cosmology repository (src/Figures/figures_script.py).

The script consists of three pure scalar model functions and a grid
evaluator.  Floating-point arithmetic is modelled over the real numbers;
the pseudo-random standard-normal draws are modelled as an explicit stream
`g : ℕ → ℝ` consumed in traversal order, and Python scalar division
(which raises on a zero divisor) is modelled with `Option`.
-/

open Real Filter

/-- Equation of state `w_z` from the source:
`-1.0 + A * np.exp(-z / z_tau) * np.cos(omega * np.log(1 + z) + delta)`. -/
noncomputable def w_z (z A omega delta z_tau : ℝ) : ℝ :=
  -1.0 + A * Real.exp (-z / z_tau) * Real.cos (omega * Real.log (1 + z) + delta)

/-- Geometric sigmoid cutoff `S_z` from the source:
`1.0 / (1.0 + np.exp((z - z_c) / Delta_z))`. -/
noncomputable def S_z (z z_c Delta_z : ℝ) : ℝ :=
  1.0 / (1.0 + Real.exp ((z - z_c) / Delta_z))

/-- The deterministic part of `variance_attractor` (everything before the
noise is added and before the `max` floor), transcribed from the source:
valley term `np.exp(-((R - 2.0) / 3.0)**2)` with `R = tau_H0 * omega`,
base variance `0.15`, valley depth `0.12`, and the two additive `+0.1`
penalty branches `if tau_H0 < 0.3 or tau_H0 > 6` and
`if omega < 0.5 or omega > 6`. -/
noncomputable def variance_attractor_det (tau_H0 omega : ℝ) : ℝ :=
  (0.15 - 0.12 * Real.exp (-(((tau_H0 * omega - 2.0) / 3.0) ^ 2)))
    + (if tau_H0 < 0.3 ∨ tau_H0 > 6 then 0.1 else 0)
    + (if omega < 0.5 ∨ omega > 6 then 0.1 else 0)

/-- Full `variance_attractor` from the source.  The third source argument
`A` (default `0.02`) does not occur in the function body; `g` is the value
of the standard-normal draw `np.random.randn()`, so the added noise is
`0.01 * g` and the result is `max(0.01, variance + noise)`. -/
noncomputable def variance_attractor (tau_H0 omega A g : ℝ) : ℝ :=
  max 0.01 (variance_attractor_det tau_H0 omega + 0.01 * g)

/-- The deterministic component as the spec words it: base `0.15` minus
`0.12 * exp(-((tauH0*omega - 2)/3)^2)`, plus `0.1` if `tauH0` is outside
the interval `[0.3, 6]`, plus another `0.1` if `omega` is outside
`[0.5, 6]`. -/
noncomputable def variance_det_spec (tauH0 omega : ℝ) : ℝ :=
  0.15 - 0.12 * Real.exp (-(((tauH0 * omega - 2) / 3) ^ 2))
    + (if ¬(0.3 ≤ tauH0 ∧ tauH0 ≤ 6) then 0.1 else 0)
    + (if ¬(0.5 ≤ omega ∧ omega ≤ 6) then 0.1 else 0)

/-- Python scalar float division: raises (here: `none`) on a zero divisor. -/
noncomputable def pydiv (x y : ℝ) : Option ℝ :=
  if y = 0 then none else some (x / y)

/-- `w_z` under Python scalar-call semantics, where the division
`-z / z_tau` can raise `ZeroDivisionError`; the fault propagates (there is
no handler anywhere in the script). -/
noncomputable def w_zE (z A omega delta z_tau : ℝ) : Option ℝ :=
  (pydiv (-z) z_tau).map
    (fun q => -1.0 + A * Real.exp q * Real.cos (omega * Real.log (1 + z) + delta))

/-- `S_z` under Python scalar-call semantics, where the division
`(z - z_c) / Delta_z` can raise `ZeroDivisionError`. -/
noncomputable def S_zE (z z_c Delta_z : ℝ) : Option ℝ :=
  (pydiv (z - z_c) Delta_z).map (fun q => 1.0 / (1.0 + Real.exp q))

/-- One row of the Figure 3 grid: the inner `for j` loop of
`plot_resilience_valley`, at fixed `omega = omega_vals[i]`, walking the
`tau_H0` coordinates and consuming one standard-normal draw per cell;
`k` is the position already reached in the shared random stream. -/
noncomputable def evalRow (omega : ℝ) (g : ℕ → ℝ) : List ℝ → ℕ → List ℝ
  | [], _ => []
  | t :: ts, k => variance_attractor t omega 0.02 (g k) :: evalRow omega g ts (k + 1)

/-- The outer `for i` loop of `plot_resilience_valley`: one row per
`omega_vals[i]`, each row advancing the shared random stream by
`tau_vals.length` draws. -/
noncomputable def evalGrid (tau_vals : List ℝ) (g : ℕ → ℝ) : List ℝ → ℕ → List (List ℝ)
  | [], _ => []
  | o :: os, k => evalRow o g tau_vals k :: evalGrid tau_vals g os (k + tau_vals.length)

/-- The Figure 3 variance grid: `np.random.seed(42)` resets the stream, so
the traversal starts at position `0` of the draw stream `g`. -/
noncomputable def resilienceGrid (tau_vals omega_vals : List ℝ) (g : ℕ → ℝ) :
    List (List ℝ) :=
  evalGrid tau_vals g omega_vals 0

theorem evalRow_length (omega : ℝ) (g : ℕ → ℝ) :
    ∀ (ts : List ℝ) (k : ℕ), (evalRow omega g ts k).length = ts.length := by
  intro ts
  induction ts with
  | nil => intro k; rfl
  | cons t ts ih => intro k; simp [evalRow, ih]

theorem evalGrid_length (tau_vals : List ℝ) (g : ℕ → ℝ) :
    ∀ (os : List ℝ) (k : ℕ), (evalGrid tau_vals g os k).length = os.length := by
  intro os
  induction os with
  | nil => intro k; rfl
  | cons o os ih => intro k; simp [evalGrid, ih]

theorem evalRow_getD (omega : ℝ) (g : ℕ → ℝ) :
    ∀ (ts : List ℝ) (k j : ℕ), j < ts.length →
      (evalRow omega g ts k).getD j 0
        = variance_attractor (ts.getD j 0) omega 0.02 (g (k + j)) := by
  intro ts
  induction ts with
  | nil => intro k j h; simp at h
  | cons t ts ih =>
    intro k j h
    cases j with
    | zero => simp [evalRow]
    | succ j =>
      simp only [evalRow, List.getD_cons_succ]
      rw [ih (k + 1) j (by simpa using h)]
      have harith : k + 1 + j = k + (j + 1) := by omega
      rw [harith]

theorem evalGrid_getD (tau_vals : List ℝ) (g : ℕ → ℝ) :
    ∀ (os : List ℝ) (k i : ℕ), i < os.length →
      (evalGrid tau_vals g os k).getD i []
        = evalRow (os.getD i 0) g tau_vals (k + i * tau_vals.length) := by
  intro os
  induction os with
  | nil => intro k i h; simp at h
  | cons o os ih =>
    intro k i h
    cases i with
    | zero => simp [evalGrid]
    | succ i =>
      simp only [evalGrid, List.getD_cons_succ]
      rw [ih (k + tau_vals.length) i (by simpa using h)]
      have harith : k + tau_vals.length + i * tau_vals.length
          = k + (i + 1) * tau_vals.length := by ring
      rw [harith]

theorem evalRow_congr (omega : ℝ) (g1 g2 : ℕ → ℝ) :
    ∀ (ts : List ℝ) (k : ℕ),
      (∀ k2, k ≤ k2 → k2 < k + ts.length → g1 k2 = g2 k2) →
      evalRow omega g1 ts k = evalRow omega g2 ts k := by
  intro ts
  induction ts with
  | nil => intro k _; rfl
  | cons t ts ih =>
    intro k h
    have hg : g1 k = g2 k := h k le_rfl (by simp only [List.length_cons]; omega)
    have ht : evalRow omega g1 ts (k + 1) = evalRow omega g2 ts (k + 1) := by
      apply ih (k + 1)
      intro k2 h1 h2
      exact h k2 (by omega) (by simp only [List.length_cons]; omega)
    simp [evalRow, hg, ht]

theorem evalGrid_congr (tau_vals : List ℝ) (g1 g2 : ℕ → ℝ) :
    ∀ (os : List ℝ) (k : ℕ),
      (∀ k2, k ≤ k2 → k2 < k + os.length * tau_vals.length → g1 k2 = g2 k2) →
      evalGrid tau_vals g1 os k = evalGrid tau_vals g2 os k := by
  intro os
  induction os with
  | nil => intro k _; rfl
  | cons o os ih =>
    intro k h
    have hgrow : (os.length + 1) * tau_vals.length
        = os.length * tau_vals.length + tau_vals.length := by ring
    have hrow : evalRow o g1 tau_vals k = evalRow o g2 tau_vals k := by
      apply evalRow_congr o g1 g2 tau_vals k
      intro k2 h1 h2
      apply h k2 h1
      simp only [List.length_cons, hgrow]
      exact lt_of_lt_of_le h2
        (Nat.add_le_add_left (Nat.le_add_left _ _) k)
    have hrest : evalGrid tau_vals g1 os (k + tau_vals.length)
        = evalGrid tau_vals g2 os (k + tau_vals.length) := by
      apply ih (k + tau_vals.length)
      intro k2 h1 h2
      apply h k2 (le_trans (Nat.le_add_right k _) h1)
      simp only [List.length_cons, hgrow]
      exact lt_of_lt_of_eq h2 (by ring)
    simp [evalGrid, hrow, hrest]

/-- Claim C1: the noise-free deterministic component of
`variance_attractor` equals `0.15 - 0.12 * exp(-((tauH0*omega - 2)/3)^2)`
plus `0.1` for each of the two out-of-range penalties, and when
`tauH0 * omega = 2` with both parameters in their non-penalized ranges it
equals exactly `0.03`. -/
theorem C1_variance_det_formula (tauH0 omega : ℝ) :
    variance_attractor_det tauH0 omega = variance_det_spec tauH0 omega ∧
    (tauH0 * omega = 2 → 0.3 ≤ tauH0 → tauH0 ≤ 6 → 0.5 ≤ omega → omega ≤ 6 →
      variance_attractor_det tauH0 omega = 0.03) := by
  constructor
  · unfold variance_attractor_det variance_det_spec
    have h1 : (if tauH0 < 0.3 ∨ tauH0 > 6 then (0.1 : ℝ) else 0)
        = (if ¬(0.3 ≤ tauH0 ∧ tauH0 ≤ 6) then (0.1 : ℝ) else 0) := by
      apply if_congr _ rfl rfl
      rw [not_and_or, not_le, not_le]
    have h2 : (if omega < 0.5 ∨ omega > 6 then (0.1 : ℝ) else 0)
        = (if ¬(0.5 ≤ omega ∧ omega ≤ 6) then (0.1 : ℝ) else 0) := by
      apply if_congr _ rfl rfl
      rw [not_and_or, not_le, not_le]
    rw [h1, h2]
    norm_num
  · intro hR h1 h2 h3 h4
    unfold variance_attractor_det
    rw [if_neg (by push_neg; constructor <;> [exact h1; exact h2]),
        if_neg (by push_neg; constructor <;> [exact h3; exact h4])]
    rw [hR]
    norm_num

/-- Witness for C1 at the concrete in-valley point `(1, 2)`. -/
theorem C1_variance_det_formula_witness :
    (1 : ℝ) * 2 = 2 ∧ variance_attractor_det 1 2 = 0.03 :=
  ⟨by norm_num,
   (C1_variance_det_formula 1 2).2 (by norm_num) (by norm_num) (by norm_num)
     (by norm_num) (by norm_num)⟩

/-- Claim C2: for every input pair, every amplitude, and every noise draw,
`variance_attractor` returns at least `0.01`; in particular it is strictly
positive and never zero. -/
theorem C2_variance_floor (tauH0 omega A g : ℝ) :
    0.01 ≤ variance_attractor tauH0 omega A g ∧
    0 < variance_attractor tauH0 omega A g ∧
    variance_attractor tauH0 omega A g ≠ 0 := by
  have h : (0.01 : ℝ) ≤ variance_attractor tauH0 omega A g := le_max_left _ _
  have hpos : (0 : ℝ) < variance_attractor tauH0 omega A g :=
    lt_of_lt_of_le (by norm_num) h
  exact ⟨h, hpos, ne_of_gt hpos⟩

/-- Claim C5: `w_z` computes exactly
`-1 + A * exp(-z/z_tau) * cos(omega * ln(1+z) + delta)`; the end-to-end
scenario `w_z(0, 0.02, 2.5, 0, 2)` gives `-0.98`, and `A = 0` gives `-1`. -/
theorem C5_w_z_formula (z A omega delta z_tau : ℝ) (hz : -1 < z) (ht : z_tau ≠ 0) :
    w_z z A omega delta z_tau
      = -1 + A * Real.exp (-z / z_tau) * Real.cos (omega * Real.log (1 + z) + delta) ∧
    w_z 0 0.02 2.5 0 2 = -0.98 ∧
    (A = 0 → w_z z A omega delta z_tau = -1) := by
  refine ⟨by norm_num [w_z], ?_, ?_⟩
  · unfold w_z
    norm_num [Real.log_one]
  · intro hA
    unfold w_z
    rw [hA]
    ring

/-- Witness for C5 at `z = 0`, `z_tau = 2`. -/
theorem C5_w_z_formula_witness :
    (-1 : ℝ) < 0 ∧ (2 : ℝ) ≠ 0 ∧ w_z 0 0.02 2.5 0 2 = -0.98 ∧ w_z 0 0 2.5 0 2 = -1 :=
  ⟨by norm_num, by norm_num,
   (C5_w_z_formula 0 0.02 2.5 0 2 (by norm_num) (by norm_num)).2.1,
   (C5_w_z_formula 0 0 2.5 0 2 (by norm_num) (by norm_num)).2.2 rfl⟩

/-- Claim C6: `S_z` computes exactly `1 / (1 + exp((z - z_c)/Delta_z))`, it
is exactly one half at the center for every nonzero width, and the
end-to-end scenario `S_z(4, 4, 0.5)` gives `0.5`. -/
theorem C6_S_z_formula (z z_c Delta_z : ℝ) (h : Delta_z ≠ 0) :
    S_z z z_c Delta_z = 1 / (1 + Real.exp ((z - z_c) / Delta_z)) ∧
    S_z z_c z_c Delta_z = 0.5 ∧
    S_z 4 4 0.5 = 0.5 := by
  refine ⟨by norm_num [S_z], ?_, ?_⟩ <;>
  · unfold S_z
    norm_num

/-- Witness for C6 at `z = z_c = 0`, `Delta_z = 1`. -/
theorem C6_S_z_formula_witness :
    (1 : ℝ) ≠ 0 ∧ S_z 0 0 1 = 0.5 :=
  ⟨by norm_num, (C6_S_z_formula 0 0 1 (by norm_num)).2.1⟩

/-- Claim C8: under Python scalar-call semantics, calling `w_z` with
`z_tau = 0` or `S_z` with `Delta_z = 0` hits a division by zero, which
propagates as an unhandled fault (`none`): the script has no handler. -/
theorem C8_div_zero_fault (z A omega delta z_c : ℝ) :
    w_zE z A omega delta 0 = none ∧ S_zE z z_c 0 = none := by
  constructor <;> simp [w_zE, S_zE, pydiv]

/-- Claim C9: the amplitude argument `A` of `variance_attractor` has no
effect: two calls differing only in `A`, observing the same noise draw,
return the same value. -/
theorem C9_amplitude_unused (tauH0 omega A1 A2 g : ℝ) :
    variance_attractor tauH0 omega A1 g = variance_attractor tauH0 omega A2 g := rfl

/-- Claim C10: the deterministic component always lies in `[0.03, 0.35]`,
so the `0.01` floor can only alter the returned value when the additive
noise `0.01 * g` is below `-0.02`. -/
theorem C10_det_bounds (tauH0 omega : ℝ) :
    0.03 ≤ variance_attractor_det tauH0 omega ∧
    variance_attractor_det tauH0 omega ≤ 0.35 ∧
    (∀ A g : ℝ,
      variance_attractor tauH0 omega A g ≠ variance_attractor_det tauH0 omega + 0.01 * g →
      0.01 * g < -0.02) := by
  have hexp_pos : 0 < Real.exp (-(((tauH0 * omega - 2.0) / 3.0) ^ 2)) := Real.exp_pos _
  have hexp_le : Real.exp (-(((tauH0 * omega - 2.0) / 3.0) ^ 2)) ≤ 1 := by
    rw [Real.exp_le_one_iff]
    exact neg_nonpos.mpr (sq_nonneg _)
  have hpen1 : (0 : ℝ) ≤ (if tauH0 < 0.3 ∨ tauH0 > 6 then (0.1 : ℝ) else 0) := by
    split <;> norm_num
  have hpen1u : (if tauH0 < 0.3 ∨ tauH0 > 6 then (0.1 : ℝ) else 0) ≤ 0.1 := by
    split <;> norm_num
  have hpen2 : (0 : ℝ) ≤ (if omega < 0.5 ∨ omega > 6 then (0.1 : ℝ) else 0) := by
    split <;> norm_num
  have hpen2u : (if omega < 0.5 ∨ omega > 6 then (0.1 : ℝ) else 0) ≤ 0.1 := by
    split <;> norm_num
  have hlo : 0.03 ≤ variance_attractor_det tauH0 omega := by
    unfold variance_attractor_det
    nlinarith
  have hhi : variance_attractor_det tauH0 omega ≤ 0.35 := by
    unfold variance_attractor_det
    nlinarith
  refine ⟨hlo, hhi, ?_⟩
  intro A g hne
  by_contra hge
  push_neg at hge
  apply hne
  unfold variance_attractor
  apply max_eq_right
  nlinarith

/-- Claim C3: the Figure 3 grid has one row per `omega_vals` entry and one
column per `tau_H0_vals` entry, cell `[i, j]` is the variance attractor at
`(tau_H0_vals[j], omega_vals[i])` (with the default amplitude `0.02`), and
the traversal is row-major and ascending, consuming the shared draw stream
exactly once per cell: cell `[i, j]` sees draw number `i * m + j`. -/
theorem C3_grid_cells (tau_vals omega_vals : List ℝ) (g : ℕ → ℝ) (i j : ℕ)
    (hi : i < omega_vals.length) (hj : j < tau_vals.length) :
    (resilienceGrid tau_vals omega_vals g).length = omega_vals.length ∧
    ((resilienceGrid tau_vals omega_vals g).getD i []).length = tau_vals.length ∧
    ((resilienceGrid tau_vals omega_vals g).getD i []).getD j 0
      = variance_attractor (tau_vals.getD j 0) (omega_vals.getD i 0) 0.02
          (g (i * tau_vals.length + j)) := by
  unfold resilienceGrid
  refine ⟨evalGrid_length _ _ _ _, ?_, ?_⟩
  · rw [evalGrid_getD _ _ _ _ _ hi, evalRow_length]
  · rw [evalGrid_getD _ _ _ _ _ hi, evalRow_getD _ _ _ _ _ hj, Nat.zero_add]

/-- Witness for C3 on the concrete grid with `tau_H0_vals = [1, 2]`,
`omega_vals = [3]` and the draw stream `g k = k`: cell `[0, 1]` is the
attractor at `(2, 3)` with draw number `0 * 2 + 1 = 1`. -/
theorem C3_grid_cells_witness :
    ((resilienceGrid [1, 2] [3] (fun k => (k : ℝ))).getD 0 []).getD 1 0
      = variance_attractor 2 3 0.02 1 := by
  simpa using
    (C3_grid_cells [1, 2] [3] (fun k => (k : ℝ)) 0 1 (by norm_num) (by norm_num)).2.2

/-- Claim C4: two runs of the grid evaluation that observe the same draw
stream from the seed point onward (agreement on the `n * m` draws the
traversal consumes suffices) produce identical variance arrays, cell for
cell. -/
theorem C4_grid_determinism (tau_vals omega_vals : List ℝ) (g1 g2 : ℕ → ℝ)
    (h : ∀ k, k < omega_vals.length * tau_vals.length → g1 k = g2 k) :
    resilienceGrid tau_vals omega_vals g1 = resilienceGrid tau_vals omega_vals g2 :=
  evalGrid_congr tau_vals g1 g2 omega_vals 0
    (fun k2 _ h2 => h k2 (by simpa using h2))

/-- Witness for C4: two streams that agree on the single consumed draw but
differ beyond it give identical `1 × 1` grids. -/
theorem C4_grid_determinism_witness :
    resilienceGrid [1] [2] (fun k => if k < 1 then (0 : ℝ) else 5)
      = resilienceGrid [1] [2] (fun _ => (0 : ℝ)) := by
  apply C4_grid_determinism
  intro k hk
  simp only [List.length_singleton, Nat.mul_one] at hk
  simp [hk]

/-- Claim C7: for every center and every positive width, `S_z` is strictly
decreasing in `z`, tends to `1` as `z → -∞`, and tends to `0` as
`z → +∞`. -/
theorem C7_S_z_monotone (z_c Delta_z : ℝ) (h : 0 < Delta_z) :
    (∀ z1 z2 : ℝ, z1 < z2 → S_z z2 z_c Delta_z < S_z z1 z_c Delta_z) ∧
    Tendsto (fun z => S_z z z_c Delta_z) atBot (nhds 1) ∧
    Tendsto (fun z => S_z z z_c Delta_z) atTop (nhds 0) := by
  have harg : ∀ z : ℝ, (z - z_c) / Delta_z = (1 / Delta_z) * (z + -z_c) := by
    intro z
    rw [sub_eq_add_neg]
    ring
  refine ⟨?_, ?_, ?_⟩
  · intro z1 z2 hlt
    unfold S_z
    have h1 : (z1 - z_c) / Delta_z < (z2 - z_c) / Delta_z :=
      div_lt_div_of_pos_right (by linarith) h
    have he : Real.exp ((z1 - z_c) / Delta_z) < Real.exp ((z2 - z_c) / Delta_z) :=
      Real.exp_lt_exp.mpr h1
    have hp : (0 : ℝ) < 1.0 + Real.exp ((z1 - z_c) / Delta_z) := by positivity
    have hb : (1.0 : ℝ) + Real.exp ((z1 - z_c) / Delta_z)
        < 1.0 + Real.exp ((z2 - z_c) / Delta_z) := by linarith
    have hfb := one_div_lt_one_div_of_lt hp hb
    norm_num at hfb ⊢
    exact hfb
  · have hbot : Tendsto (fun z : ℝ => (z - z_c) / Delta_z) atBot atBot := by
      simp only [harg]
      exact (tendsto_atBot_add_const_right atBot (-z_c) tendsto_id).const_mul_atBot
        (by positivity)
    have hexp : Tendsto (fun z : ℝ => Real.exp ((z - z_c) / Delta_z)) atBot (nhds 0) :=
      Real.tendsto_exp_atBot.comp hbot
    have hden : Tendsto (fun z : ℝ => 1.0 + Real.exp ((z - z_c) / Delta_z)) atBot
        (nhds (1.0 + 0)) := tendsto_const_nhds.add hexp
    have hdiv : Tendsto (fun z : ℝ => 1.0 / (1.0 + Real.exp ((z - z_c) / Delta_z)))
        atBot (nhds (1.0 / (1.0 + 0))) := tendsto_const_nhds.div hden (by norm_num)
    have hone : (1.0 : ℝ) / (1.0 + 0) = 1 := by norm_num
    rw [hone] at hdiv
    exact hdiv
  · have htop : Tendsto (fun z : ℝ => (z - z_c) / Delta_z) atTop atTop := by
      simp only [harg]
      exact (tendsto_atTop_add_const_right atTop (-z_c) tendsto_id).const_mul_atTop
        (by positivity)
    have hexp : Tendsto (fun z : ℝ => Real.exp ((z - z_c) / Delta_z)) atTop atTop :=
      Real.tendsto_exp_atTop.comp htop
    have hden : Tendsto (fun z : ℝ => 1.0 + Real.exp ((z - z_c) / Delta_z)) atTop
        atTop := tendsto_atTop_add_const_left atTop 1.0 hexp
    have hfin : Tendsto (fun z : ℝ => (1.0 + Real.exp ((z - z_c) / Delta_z))⁻¹)
        atTop (nhds 0) := hden.inv_tendsto_atTop
    have hSz : ∀ z : ℝ, (1.0 + Real.exp ((z - z_c) / Delta_z))⁻¹ = S_z z z_c Delta_z := by
      intro z
      simp only [S_z]
      norm_num
    exact Tendsto.congr hSz hfin

/-- Witness for C7 at `z_c = 0`, `Delta_z = 1`, with the pair `0 < 1`. -/
theorem C7_S_z_monotone_witness :
    (0 : ℝ) < 1 ∧ S_z 1 0 1 < S_z 0 0 1 :=
  ⟨by norm_num, (C7_S_z_monotone 0 1 (by norm_num)).1 0 1 (by norm_num)⟩

/-- Witness for C10: at `(1, 2)` with draw `g = -3` the floor fires and
indeed `0.01 * (-3) < -0.02`. -/
theorem C10_det_bounds_witness :
    variance_attractor 1 2 0.02 (-3) ≠ variance_attractor_det 1 2 + 0.01 * (-3) ∧
    (0.01 : ℝ) * (-3) < -0.02 := by
  have hdet : variance_attractor_det 1 2 = 0.03 := by
    unfold variance_attractor_det
    norm_num
  have hne : variance_attractor 1 2 0.02 (-3) ≠ variance_attractor_det 1 2 + 0.01 * (-3) := by
    unfold variance_attractor
    rw [hdet]
    norm_num
  exact ⟨hne, (C10_det_bounds 1 2).2.2 0.02 (-3) hne⟩
